import Mathlib

/-!
Verification of the rustix linux_raw process-syscall layer
(`src/imp/linux_raw/process/syscalls.rs`) against its specification.

Conventions of the shallow embedding:

* A raw kernel outcome is modelled as an `Int`: the signed interpretation of
  the machine word returned by the dispatcher.  Following the kernel
  convention described in the specification, a negative raw outcome is a
  negated error code and a non-negative raw outcome is the success payload.
* Kernel syscall results that a function consumes (the raw outcome word, and
  any structure the kernel wrote into an output slot) are passed to the
  Lean model as explicit parameters: they are the environment of one call.
* Debug assertions in the source are, per the specification's error-handling
  design (caller-invariant violations are "reported via an unconditional
  abort-style check" and "never return"), modelled as an abort: functions
  whose call path can halt return an `Option`, with `none` meaning the
  abort-style check fired.
* Machine integer casts are modelled on `Nat`/`Int` with explicit `% 2^32`
  where a 32-bit truncation happens in the source.
-/

namespace Rustix

/-- Modelled from the spec: the Error Domain is a closed enumeration of
kernel error codes plus a catch-all "unrecognized" member for codes outside
the known set.  The known set is represented by the standard Linux errno
numbers 1..133. -/
inductive Errno where
  | known : Nat → Errno
  | unrecognized : Errno
  deriving DecidableEq

/-- Modelled from the spec: membership in the closed set of known kernel
error codes (standard Linux errno numbers 1..133). -/
def isKnownErrnoCode (code : Int) : Bool :=
  decide (1 ≤ code ∧ code ≤ 133)

/-- Modelled from the spec: map a (positive) error-code magnitude to a
member of the Error Domain, falling back to the catch-all member for codes
outside the known set. -/
def decodeErrno (code : Int) : Errno :=
  if isKnownErrnoCode code then .known code.toNat else .unrecognized

/-- The "operation not implemented" error (Linux `ENOSYS`, code 38). -/
def NOSYS : Errno := .known 38

instance exceptDecEq {ε α : Type} [DecidableEq ε] [DecidableEq α] : DecidableEq (Except ε α)
  | .error e, .error f =>
    if h : e = f then .isTrue (by rw [h]) else .isFalse (fun hc => h (Except.error.inj hc))
  | .error _, .ok _ => .isFalse (fun hc => Except.noConfusion hc)
  | .ok _, .error _ => .isFalse (fun hc => Except.noConfusion hc)
  | .ok a, .ok b =>
    if h : a = b then .isTrue (by rw [h]) else .isFalse (fun hc => h (Except.ok.inj hc))

/-- Modelled from the spec: the Result Decoder interprets a raw return word
as either a non-negative success payload or a negated kernel error code. -/
def decodeRaw (raw : Int) : Except Errno Nat :=
  if raw < 0 then .error (decodeErrno (-raw)) else .ok raw.toNat

/-- Modelled from the spec: fallible-unit decoder (`ret` in the source's
conversion module): error or unit success. -/
def ret (raw : Int) : Except Errno Unit :=
  match decodeRaw raw with
  | .error e => .error e
  | .ok _ => .ok ()

/-- Modelled from the spec: fallible word decoder (`ret_usize`): error or
the full-width payload. -/
def ret_usize (raw : Int) : Except Errno Nat :=
  decodeRaw raw

/-- Modelled from the spec: fallible 32-bit unsigned decoder (`ret_c_uint`):
the payload is narrowed to 32 bits with overflow checked; an overflowing
payload is a caller-invariant violation, modelled as the abort `none`. -/
def ret_c_uint (raw : Int) : Option (Except Errno Nat) :=
  match decodeRaw raw with
  | .error e => some (.error e)
  | .ok p => if p < 2 ^ 32 then some (.ok p) else none

/-- Modelled from the spec: fallible 32-bit signed decoder (`ret_c_int`):
the payload is narrowed to a signed 32-bit value with overflow checked. -/
def ret_c_int (raw : Int) : Option (Except Errno Int) :=
  match decodeRaw raw with
  | .error e => some (.error e)
  | .ok p => if p < 2 ^ 31 then some (.ok (p : Int)) else none

/-- Modelled from the spec: infallible word decoder
(`ret_usize_infallible`): the caller asserts the call cannot fail, so a
negative outcome is a fatal invariant violation (abort). -/
def ret_usize_infallible (raw : Int) : Option Nat :=
  if raw < 0 then none else some raw.toNat

/-- Modelled from the spec: infallible unit decoder (`ret_infallible`). -/
def ret_infallible (raw : Int) : Option Unit :=
  if raw < 0 then none else some ()

/-- Modelled from the spec: the Argument Encoder for a fixed-width 32-bit
unsigned integer argument (`c_uint`): the value is zero-extended into one
machine-word-sized raw register value. -/
def c_uint_encode (v : Nat) : Int :=
  (v : Int)

/-! ## `getpid` / `getppid` (source lines 101-116) -/

/-- `getpid` from the source: decode the payload infallibly, cast it to a
32-bit process identifier, and halt (abort) if it is zero; otherwise return
the identifier.  The source's cast chain `usize as __kernel_pid_t as u32`
is a 32-bit truncation; the intermediate signed view does not affect the
zero test, so it is modelled as `% 2^32`. -/
def getpid (raw : Int) : Option Nat :=
  match ret_usize_infallible raw with
  | none => none
  | some payload =>
    let pid := payload % 2 ^ 32
    if pid = 0 then none else some pid

/-- `getppid` from the source: decode the payload infallibly, cast it to a
32-bit identifier, and map zero to the absent parent (`Pid::from_raw`
returns `None` on zero). -/
def getppid (raw : Int) : Option (Option Nat) :=
  match ret_usize_infallible raw with
  | none => none
  | some payload =>
    let ppid := payload % 2 ^ 32
    some (if ppid = 0 then none else some ppid)

/-! ## `membarrier_query` (source lines 57-76) -/

/-- `membarrier_query` from the source: a capability bit-set (`Nat` models
the `MembarrierQuery` bit-set; `from_bits_unchecked` preserves the bits, and
`MembarrierQuery::empty()` is the zero bit-set).  Any decode failure yields
the empty set; the return type carries no error case. -/
def membarrier_query (raw : Int) : Option Nat :=
  match ret_c_uint raw with
  | none => none
  | some (.ok query) => some query
  | some (.error _) => some 0

/-! ## `_waitpid` (source lines 401-418) -/

/-- `_waitpid` from the source: decode the raw outcome of `wait4` as a
32-bit unsigned pid; an error propagates, and a zero pid payload becomes
the distinguished `none` result (`RawNonZeroPid::new` returns `None` on
zero).  `status` is the status word the kernel wrote into the output slot. -/
def _waitpid (raw : Int) (status : Nat) : Option (Except Errno (Option (Nat × Nat))) :=
  match ret_c_uint raw with
  | none => none
  | some (.error e) => some (.error e)
  | some (.ok pid) =>
    some (.ok (if pid = 0 then none else some (pid, status)))

/-! ## priority calls (source lines 226-311) -/

/-- `getpriority_process` from the source: `20 - decoded payload`. -/
def getpriority_process (raw : Int) : Option (Except Errno Int) :=
  match ret_c_int raw with
  | none => none
  | some (.error e) => some (.error e)
  | some (.ok v) => some (.ok (20 - v))

/-- `setpriority_process` from the source: a fallible unit call. -/
def setpriority_process (raw : Int) : Except Errno Unit :=
  ret raw

/-- `nice` from the source (lines 227-239).  `getprioRaw` and `setprioRaw`
are the raw outcomes of the underlying `getpriority` and `setpriority`
syscalls.  The clamp `.min(19).max(-20)` applies to the whole
`if`-expression, i.e. to both the in-range and the out-of-range branch. -/
def nice (getprioRaw : Int) (setprioRaw : Int) (inc : Int) : Option (Except Errno Int) :=
  let step : Option (Except Errno Int) :=
    if -40 < inc ∧ inc < 40 then
      match getpriority_process getprioRaw with
      | none => none
      | some (.error e) => some (.error e)
      | some (.ok p) => some (.ok (inc + p))
    else
      some (.ok inc)
  match step with
  | none => none
  | some (.error e) => some (.error e)
  | some (.ok v) =>
    let priority := max (min v 19) (-20)
    match setpriority_process setprioRaw with
    | .error e => some (.error e)
    | .ok () => some (.ok priority)

/-! ## `getrlimit`, 32-bit target (source lines 313-363) -/

/-- The 64-bit resource-limit structure (`rlimit64`): two 64-bit fields. -/
structure rlimit64 where
  rlim_cur : Nat
  rlim_max : Nat
  deriving DecidableEq

/-- The legacy narrow resource-limit structure (`rlimit` on a 32-bit
target): two 32-bit fields. -/
structure rlimit where
  rlim_cur : Nat
  rlim_max : Nat
  deriving DecidableEq

/-- The legacy infinity marker (`RLIM_INFINITY` as a 32-bit value). -/
def RLIM_INFINITY : Nat := 2 ^ 32 - 1

/-- The 64-bit infinity marker (`RLIM64_INFINITY`). -/
def RLIM64_INFINITY : Nat := 2 ^ 64 - 1

/-- The caller-visible limit structure: `None` is the open-ended unbounded
sentinel. -/
structure Rlimit where
  current : Option Nat
  maximum : Option Nat
  deriving DecidableEq

/-- The checked conversion `.try_into().ok()` from a legacy field into the
64-bit caller-visible width: `none` when the value does not fit. -/
def tryInto64 (v : Nat) : Option Nat :=
  if v < 2 ^ 64 then some v else none

/-- The legacy fallback reinterpretation inside 32-bit `getrlimit` (source
lines 349-360).  The source's `maximum` branch reads `result.rlim_cur`, not
`result.rlim_max`. -/
def getrlimit_fallback (result : rlimit) : Rlimit :=
  let current :=
    if result.rlim_cur = RLIM_INFINITY then none else tryInto64 result.rlim_cur
  let maximum :=
    if result.rlim_max = RLIM_INFINITY then none else tryInto64 result.rlim_cur
  ⟨current, maximum⟩

/-- 32-bit `getrlimit` from the source: try the 64-bit `prlimit64` encoding
first; on error, assert (abort-style) that the error is `NOSYS` and issue
the legacy encoding, whose decode is infallible.  `primaryRaw` and
`primary64` are the raw outcome and output structure of `prlimit64`;
`fallbackRaw` and `fallbackResult` those of the legacy syscall.  The first
component counts how many times the fallback encoding was issued; the
second is `none` when an abort-style check fired. -/
def getrlimit32 (primaryRaw : Int) (primary64 : rlimit64)
    (fallbackRaw : Int) (fallbackResult : rlimit) : Nat × Option Rlimit :=
  match ret primaryRaw with
  | .ok () =>
    let current :=
      if primary64.rlim_cur = RLIM64_INFINITY then none else some primary64.rlim_cur
    let maximum :=
      if primary64.rlim_max = RLIM64_INFINITY then none else some primary64.rlim_max
    (0, some ⟨current, maximum⟩)
  | .error e =>
    if e = NOSYS then
      match ret_infallible fallbackRaw with
      | none => (1, none)
      | some () => (1, some (getrlimit_fallback fallbackResult))
    else
      (0, none)

/-! ## `sched_getaffinity` (source lines 178-196) -/

/-- `sched_getaffinity` from the source: the kernel reports the number of
bytes it wrote; on success the code zeroes every remaining byte of the
CPU-set buffer (`rest.write_bytes(0, size_of - size)`).  `buf` is the
buffer contents after the kernel wrote its prefix. -/
def sched_getaffinity (raw : Int) (buf : List Nat) : Except Errno (List Nat) :=
  match ret_usize raw with
  | .error e => .error e
  | .ok size => .ok (buf.take size ++ List.replicate (buf.length - size) 0)

/-! ## Theorems -/

/-- C1, counterexample: the claim says an increment outside [-40, 40) is
applied and returned unmodified, but `nice` with increment 100 (current
priority 0, `setpriority` succeeding) applies 19, not 100; and the claim
says -40 lies inside the normalized range so the current priority is added,
but `nice` with increment -40 succeeds with -20 even when the
`getpriority` call fails. -/
theorem nice_passthrough_counterexample :
    (nice 20 0 100 = some (.ok 19) ∧
      (some (Except.ok 19) : Option (Except Errno Int)) ≠ some (.ok 100)) ∧
    (nice (-1) 0 (-40) = some (.ok (-20)) ∧
      getpriority_process (-1) = some (.error (.known 1))) := by
  refine ⟨⟨?_, by decide⟩, ?_, ?_⟩ <;> rfl

/-- C1, amended: if the increment lies outside the open interval (-40, 40)
the applied (and returned) value is the increment clamped to [-20, 19],
without reading the current priority; if it lies strictly inside that
interval, the applied value is the increment plus the current priority,
clamped to [-20, 19] (assuming the underlying `setpriority` call
succeeds). -/
theorem nice_clamped (g s inc p : Int) (hset : ret s = .ok ()) :
    (¬(-40 < inc ∧ inc < 40) →
      nice g s inc = some (.ok (max (min inc 19) (-20)))) ∧
    ((-40 < inc ∧ inc < 40) → getpriority_process g = some (.ok p) →
      nice g s inc = some (.ok (max (min (inc + p) 19) (-20)))) := by
  constructor
  · intro hout
    simp only [nice, if_neg hout, setpriority_process, hset]
  · intro hin hg
    simp only [nice, if_pos hin, hg, setpriority_process, hset]

theorem nice_clamped_witness :
    ret 0 = .ok () ∧ nice 20 0 100 = some (.ok 19) :=
  ⟨rfl, by
    have h := (nice_clamped 20 0 100 0 rfl).1 (by decide)
    simpa using h⟩

/-- C2: evaluating the legacy fallback reinterpretation at a structure with
current limit 5 and maximum limit 7 (neither the infinity marker): the code
returns maximum `some 5`, read from the current-limit field, not `some 7`
from the maximum-limit field as the claim (and the evident intent of the
adjacent infinity test on `rlim_max`) requires. -/
theorem getrlimit_fallback_bug :
    getrlimit_fallback ⟨5, 7⟩ = ⟨some 5, some 5⟩ ∧
    getrlimit_fallback ⟨5, 7⟩ ≠ ⟨some 5, some 7⟩ := by
  constructor
  · rfl
  · intro h
    have := congrArg Rlimit.maximum h
    simp [getrlimit_fallback, RLIM_INFINITY, tryInto64] at this

/-- C3: 32-bit `getrlimit` issues the legacy fallback encoding exactly once
when the primary 64-bit encoding reports NOSYS and never otherwise (on any
other primary error the abort-style check halts the path first), and the
NOSYS error is absorbed: when the fallback decode succeeds the caller gets
the reinterpreted legacy result, and the return type carries no error
case at all. -/
theorem getrlimit32_fallback_iff (praw : Int) (p64 : rlimit64)
    (fraw : Int) (fres : rlimit) :
    ((getrlimit32 praw p64 fraw fres).1 = 1 ↔ ret praw = .error NOSYS) ∧
    (getrlimit32 praw p64 fraw fres).1 ≤ 1 ∧
    (ret praw = .error NOSYS → 0 ≤ fraw →
      (getrlimit32 praw p64 fraw fres).2 = some (getrlimit_fallback fres)) := by
  refine ⟨⟨?_, ?_⟩, ?_, ?_⟩
  · intro h1
    rcases hp : ret praw with e | u
    · by_cases he : e = NOSYS
      · rw [he]
      · simp [getrlimit32, hp, he] at h1
    · simp [getrlimit32, hp] at h1
  · intro hp
    simp only [getrlimit32, hp, if_pos rfl]
    rcases hf : ret_infallible fraw with _ | u <;> simp
  · rcases hp : ret praw with e | u
    · by_cases he : e = NOSYS
      · simp only [getrlimit32, hp, if_pos he]
        rcases hf : ret_infallible fraw with _ | u <;> simp
      · simp [getrlimit32, hp, he]
    · simp [getrlimit32, hp]
  · intro hp hfraw
    have hf : ret_infallible fraw = some () := by
      simp [ret_infallible, not_lt.mpr hfraw]
    simp [getrlimit32, hp, hf]

theorem getrlimit32_fallback_iff_witness :
    ret (-38) = .error NOSYS ∧ (0 : Int) ≤ 0 ∧
    (getrlimit32 (-38) ⟨0, 0⟩ 0 ⟨5, 7⟩).2 = some (getrlimit_fallback ⟨5, 7⟩) :=
  ⟨rfl, le_refl 0,
    (getrlimit32_fallback_iff (-38) ⟨0, 0⟩ 0 ⟨5, 7⟩).2.2 rfl (le_refl 0)⟩

/-- C4: for every raw outcome that decodes as a failure, the membarrier
capability query returns the empty capability set (the zero bit-set); the
codomain of the query carries no error case, so no error can reach the
caller. -/
theorem membarrier_query_empty_on_failure (raw : Int) (e : Errno)
    (h : decodeRaw raw = .error e) :
    membarrier_query raw = some 0 := by
  simp [membarrier_query, ret_c_uint, h]

theorem membarrier_query_empty_on_failure_witness :
    decodeRaw (-1) = .error (.known 1) ∧ membarrier_query (-1) = some 0 :=
  ⟨rfl, membarrier_query_empty_on_failure (-1) (.known 1) rfl⟩

/-- C5: a wait-for-child call whose raw outcome is the zero payload (no
child to report) yields the distinguished `Except.ok none` result, which is
a third case distinct from every error and from every
success-with-value. -/
theorem waitpid_zero_payload (status : Nat) :
    _waitpid 0 status = some (.ok none) ∧
    (∀ e : Errno,
      (some (Except.ok none) : Option (Except Errno (Option (Nat × Nat)))) ≠
        some (.error e)) ∧
    (∀ pr : Nat × Nat,
      (some (Except.ok none) : Option (Except Errno (Option (Nat × Nat)))) ≠
        some (.ok (some pr))) := by
  refine ⟨rfl, fun e h => ?_, fun pr h => ?_⟩ <;> simp at h

theorem waitpid_zero_payload_witness :
    _waitpid 0 0 = some (.ok none) :=
  (waitpid_zero_payload 0).1

/-- C6: any raw outcome in the failure region whose code magnitude lies
outside the known set of kernel error codes decodes to the catch-all
unrecognized member of the Error Domain — never to a success payload, and
`decodeRaw` is a total function, so never to a crash. -/
theorem decodeRaw_unknown_unrecognized (raw : Int) (h1 : raw < 0)
    (h2 : isKnownErrnoCode (-raw) = false) :
    decodeRaw raw = .error .unrecognized ∧ ∀ p : Nat, decodeRaw raw ≠ .ok p := by
  have hd : decodeRaw raw = .error .unrecognized := by
    simp [decodeRaw, if_pos h1, decodeErrno, h2]
  exact ⟨hd, fun p hp => by rw [hd] at hp; exact Except.noConfusion hp⟩

theorem decodeRaw_unknown_unrecognized_witness :
    (-4096 : Int) < 0 ∧ isKnownErrnoCode (-(-4096)) = false ∧
    decodeRaw (-4096) = .error .unrecognized :=
  ⟨by decide, by decide,
    (decodeRaw_unknown_unrecognized (-4096) (by decide) (by decide)).1⟩

/-- C7: encoding a fixed-width 32-bit unsigned integer argument to a raw
register value and decoding the payload from that value as a simulated
non-negative raw outcome yields the original value, over the full
representable range including zero and the maximum value. -/
theorem c_uint_roundtrip (v : Nat) (h : v < 2 ^ 32) :
    ret_c_uint (c_uint_encode v) = some (.ok v) := by
  have h0 : ¬ ((v : Int) < 0) := not_lt.mpr (Int.natCast_nonneg v)
  have h1 : v < 4294967296 := by
    have e32 : (2 : Nat) ^ 32 = 4294967296 := by norm_num
    rw [e32] at h
    exact h
  simp [ret_c_uint, c_uint_encode, decodeRaw, h0, Int.toNat_natCast, h1]

theorem c_uint_roundtrip_witness :
    ((4294967295 : Nat) < 2 ^ 32 ∧
      ret_c_uint (c_uint_encode 4294967295) = some (.ok 4294967295)) ∧
    ((0 : Nat) < 2 ^ 32 ∧ ret_c_uint (c_uint_encode 0) = some (.ok 0)) :=
  ⟨⟨by norm_num, c_uint_roundtrip 4294967295 (by norm_num)⟩,
    ⟨by norm_num, c_uint_roundtrip 0 (by norm_num)⟩⟩

/-- C8: a zero 32-bit pid payload makes `getpid` halt through the
abort-style check (the `none` outcome), and consequently every identifier
`getpid` actually returns is non-zero. -/
theorem getpid_nonzero (raw : Int) :
    (∀ p : Nat, getpid raw = some p → p ≠ 0) ∧
    (0 ≤ raw → raw.toNat % 2 ^ 32 = 0 → getpid raw = none) := by
  have e32 : (2 : Nat) ^ 32 = 4294967296 := by norm_num
  constructor
  · intro p hp
    by_cases hneg : raw < 0
    · simp [getpid, ret_usize_infallible, hneg] at hp
    · by_cases hz : raw.toNat % 2 ^ 32 = 0
      · rw [e32] at hz
        simp [getpid, ret_usize_infallible, hneg, hz] at hp
      · rw [e32] at hz
        simp [getpid, ret_usize_infallible, hneg, hz] at hp
        intro hp0
        rw [hp0] at hp
        exact hz hp
  · intro hnn hz
    rw [e32] at hz
    simp [getpid, ret_usize_infallible, not_lt.mpr hnn, hz]

theorem getpid_nonzero_witness :
    (0 : Int) ≤ 4294967296 ∧ (4294967296 : Int).toNat % 2 ^ 32 = 0 ∧
    getpid 4294967296 = none :=
  ⟨by decide, by decide, (getpid_nonzero 4294967296).2 (by decide) (by decide)⟩

/-- C9: on every successful return of `sched_getaffinity`, every byte of
the CPU-set buffer at an offset at or beyond the size the kernel reports
having written is zero. -/
theorem sched_getaffinity_zeroed (raw : Int) (buf : List Nat) (size : Nat)
    (out : List Nat) (hret : ret_usize raw = .ok size)
    (hout : sched_getaffinity raw buf = .ok out)
    (i : Nat) (hi : size ≤ i) : out.getD i 0 = 0 := by
  have hout2 : out = buf.take size ++ List.replicate (buf.length - size) 0 := by
    simp [sched_getaffinity, hret] at hout
    exact hout.symm
  subst hout2
  have hlen : (buf.take size).length ≤ i := by
    rw [List.length_take]
    exact le_trans (min_le_left _ _) hi
  rw [List.getD_eq_getElem?_getD, List.getElem?_append_right hlen,
    List.getElem?_replicate]
  split <;> rfl

theorem sched_getaffinity_zeroed_witness :
    ret_usize 1 = .ok 1 ∧
    sched_getaffinity 1 [7, 7, 7, 7] = .ok [7, 0, 0, 0] ∧
    (1 : Nat) ≤ 2 ∧ ([7, 0, 0, 0] : List Nat).getD 2 0 = 0 :=
  ⟨rfl, rfl, by decide,
    sched_getaffinity_zeroed 1 [7, 7, 7, 7] 1 [7, 0, 0, 0] rfl rfl 2 (by decide)⟩

/-- C10: `getppid` never aborts on any payload: a zero 32-bit payload
decodes to the absent parent `none` and every non-zero payload to `some` of
that identifier — in contrast, the same zero payload makes `getpid`
abort. -/
theorem getppid_total (raw : Int) (h : 0 ≤ raw) :
    getppid raw =
      some (if raw.toNat % 2 ^ 32 = 0 then none else some (raw.toNat % 2 ^ 32)) ∧
    (raw.toNat % 2 ^ 32 = 0 → getpid raw = none) := by
  have e32 : (2 : Nat) ^ 32 = 4294967296 := by norm_num
  constructor
  · simp [getppid, ret_usize_infallible, not_lt.mpr h]
  · intro hz
    rw [e32] at hz
    simp [getpid, ret_usize_infallible, not_lt.mpr h, hz]

theorem getppid_total_witness :
    (0 : Int) ≤ 0 ∧ getppid 0 = some none ∧ getpid 0 = none := by
  refine ⟨le_refl 0, ?_, (getppid_total 0 (le_refl 0)).2 rfl⟩
  have h := (getppid_total 0 (le_refl 0)).1
  simpa using h

end Rustix
